import Mathlib

/-!
Verification of the event/signal dispatch and client-streaming core of the
RustyTags repository (`rusty_tags/blinker.py`, `rusty_tags/backend.py`).

The Python code is shallowly embedded as follows.

* Payload values (`PyVal`) — opaque items produced by handlers.  `PyVal.none`
  is Python's `None`; `PyVal.exc e` is an exception object carrying message
  `e`.  The burst output queue holds `QEntry` values: either a payload
  (`QEntry.val`) or the fresh `SENTINEL = object()` marker (`QEntry.snt`);
  making the sentinel its own constructor mirrors the freshness of the object
  created at module scope.

* `aiterResults` embeds `_aiter_results` (identical in `blinker.py` and
  `backend.py`): a handler's raw return value is one of four disjoint shapes,
  and each shape maps to a list of produced items.  The sync-generator branch
  goes through `_aiter_sync_gen`, embedded by `aiterSyncGen` (pump thread
  pushes every item then a DONE marker; the consumer loop reads until DONE).

* `send_stream` (blinker.py 59-80) runs one worker task per receiver inside
  an `asyncio.TaskGroup` and puts `SENTINEL` in a `finally` after the group
  has joined.  A worker's externally visible behaviour is a `HandlerRun`:
  the items its iteration produced, and optionally the exception that ended
  it.  The nondeterministic interleaving of the worker tasks is the step
  relation `BurstStep` on `BurstState`; `Reachable runs s` says state `s`
  can arise while `send_stream` executes a burst whose workers behave as
  `runs`.  A worker that raises has its pending items empty at the moment of
  the raise (items in `HandlerRun.items` are exactly those yielded before the
  exception), and the caught exception is pushed as an item, as in the
  `except Exception as e: await out_q.put(e)` branch.  The sentinel step
  requires all workers settled (the TaskGroup join) and fires once.

* `Client` (backend.py 17-131) is embedded as `ClientModel`.  Each call to
  `subscribe` creates a fresh receiver closure and connects it (non-weakly)
  to the topic's blinker signal; receivers are recorded as
  `(rid, topic, filter)` triples with `rid` drawn from a counter, because the
  Python closures are distinct objects.  `subscriptions` is the bookkeeping
  dict `self.subscriptions` (topic ↦ filter and recorded receiver), with
  dict-assignment semantics: a second `subscribe` on the same topic replaces
  the dict entry but does not disconnect the previously connected receiver.
  `topicReceiver` is the body of the receiver closure: it checks the sender
  filter and drops `None`, and does not consult the `connected` flag.
  `deliver` models one routed item reaching the client: every receiver the
  client has connected on that topic fires in connection order.
-/

/-- A Python value as seen by the dispatch core: opaque payloads, `None`,
and exception objects (carrying their message). -/
inductive PyVal : Type
  | none : PyVal
  | int : Int → PyVal
  | str : String → PyVal
  | exc : String → PyVal
deriving DecidableEq, Repr

/-- An entry of the burst output queue: a payload value or the module-level
`SENTINEL = object()`, which is distinct from every payload by freshness. -/
inductive QEntry : Type
  | val : PyVal → QEntry
  | snt : QEntry
deriving DecidableEq, Repr

/-- The four disjoint shapes `_aiter_results` distinguishes for the raw
return value of `handler(*args, **kwargs)`: async generator, awaitable,
sync generator, plain value.  Generator shapes carry the items their
iteration yields, awaitables the value they resolve to. -/
inductive HandlerResult : Type
  | asyncGen : List PyVal → HandlerResult
  | awaitable : PyVal → HandlerResult
  | syncGen : List PyVal → HandlerResult
  | plain : PyVal → HandlerResult
deriving DecidableEq, Repr

/-- The pump thread of `_aiter_sync_gen`: it puts every generated item into
the handoff queue and, in a `finally`, the fresh `DONE` marker (modelled as
`Option.none`). -/
def syncGenPump (items : List PyVal) : List (Option PyVal) :=
  items.map Option.some ++ [Option.none]

/-- `_aiter_sync_gen`: the consumer loop reads from the handoff queue until
it meets `DONE`, yielding everything before it. -/
def aiterSyncGen (items : List PyVal) : List PyVal :=
  ((syncGenPump items).takeWhile fun o => o.isSome).filterMap id

/-- `_aiter_results` (blinker.py 32-57, backend.py 154-179): async generator
→ each item; awaitable → the awaited value once; sync generator → each item
via the thread bridge; plain value → that value once. -/
def aiterResults : HandlerResult → List PyVal
  | .asyncGen xs => xs
  | .awaitable v => [v]
  | .syncGen xs => aiterSyncGen xs
  | .plain v => [v]

/-! ## The dispatch burst (`send_stream`) -/

/-- The externally visible behaviour of one worker task of `send_stream`:
the items its `async for` produced, in order, and — if the invocation or the
iteration raised — the exception that ended it (`error = some e`).  Items
listed are exactly those yielded before any raise. -/
structure HandlerRun : Type where
  items : List PyVal
  error : Option String
deriving DecidableEq, Repr

/-- State of one executing burst: the remaining behaviour of each unsettled
worker task, the contents of `out_q`, and whether the `finally` block has
put the sentinel. -/
structure BurstState : Type where
  pending : List HandlerRun
  outQ : List QEntry
  sentinelSent : Bool
deriving DecidableEq, Repr

/-- The state in which `send_stream` starts a burst: all workers pending,
`out_q` empty, sentinel not yet sent. -/
def initBurst (runs : List HandlerRun) : BurstState :=
  ⟨runs, [], false⟩

/-- One scheduler step of a burst.  Any pending worker may act: yield its
next item (dropped when it is `None`, enqueued otherwise, by the
`if item is not None: await out_q.put(item)` lines), settle by raising (the
caught exception is enqueued as an item) or settle by finishing.  Only after
every worker has settled (the TaskGroup join) does the `finally` block
enqueue the sentinel, and it does so once. -/
inductive BurstStep : BurstState → BurstState → Prop
  | yieldNone (l rr : List HandlerRun) (rest : List PyVal) (err : Option String)
      (q : List QEntry) (b : Bool) :
      BurstStep ⟨l ++ ⟨PyVal.none :: rest, err⟩ :: rr, q, b⟩
        ⟨l ++ ⟨rest, err⟩ :: rr, q, b⟩
  | yieldItem (l rr : List HandlerRun) (rest : List PyVal) (err : Option String)
      (q : List QEntry) (b : Bool) (v : PyVal) (hv : v ≠ PyVal.none) :
      BurstStep ⟨l ++ ⟨v :: rest, err⟩ :: rr, q, b⟩
        ⟨l ++ ⟨rest, err⟩ :: rr, q ++ [QEntry.val v], b⟩
  | raiseErr (l rr : List HandlerRun) (e : String) (q : List QEntry) (b : Bool) :
      BurstStep ⟨l ++ ⟨[], some e⟩ :: rr, q, b⟩
        ⟨l ++ rr, q ++ [QEntry.val (PyVal.exc e)], b⟩
  | finish (l rr : List HandlerRun) (q : List QEntry) (b : Bool) :
      BurstStep ⟨l ++ ⟨[], Option.none⟩ :: rr, q, b⟩ ⟨l ++ rr, q, b⟩
  | sentinel (q : List QEntry) :
      BurstStep ⟨[], q, false⟩ ⟨[], q ++ [QEntry.snt], true⟩

/-- States a burst with worker behaviours `runs` can pass through. -/
def Reachable (runs : List HandlerRun) (s : BurstState) : Prop :=
  Relation.ReflTransGen BurstStep (initBurst runs) s

/-- The queue entries one settled worker contributed to `out_q`: its
non-`None` items in order, then its caught exception if it raised. -/
def errOut : Option String → List QEntry
  | some e => [QEntry.val (PyVal.exc e)]
  | Option.none => []

/-- Everything one worker puts into `out_q` over the burst. -/
def runOut (r : HandlerRun) : List QEntry :=
  (r.items.filter fun v => v ≠ PyVal.none).map QEntry.val ++ errOut r.error

/-- All real entries a burst contributes to `out_q`, worker by worker. -/
def burstTotal (runs : List HandlerRun) : List QEntry :=
  (runs.map runOut).flatten

/-- The entries the still-pending workers of a burst state have yet to put
into `out_q`. -/
def pendingOut (runs : List HandlerRun) : List QEntry :=
  (runs.map runOut).flatten

/-- The sentinel's contribution to the conservation account of a burst:
one sentinel once the `finally` block has run, nothing before. -/
def sentPart (b : Bool) : Multiset QEntry :=
  if b then {QEntry.snt} else 0

/-! ## The Client (backend.py) -/

/-- A subscription's sender filter: blinker's `ANY`, or the `set(senders)`
built from an explicit sender list. -/
inductive SenderFilter : Type
  | any : SenderFilter
  | only : List String → SenderFilter
deriving DecidableEq, Repr

/-- The guard `senders_set is ANY or sender in senders_set` of the receiver
closure. -/
def senderMatches : SenderFilter → String → Bool
  | .any, _ => true
  | .only ss, s => ss.contains s

/-- The body of the `topic_receiver` closure created by `Client.subscribe`
(backend.py 60-63): enqueue `result` on the client's queue when the sender
filter matches and the result is not `None`.  The `connected` flag is not
consulted. -/
def topicReceiver (filter : SenderFilter) (queue : List PyVal)
    (sender : String) (result : PyVal) : List PyVal :=
  if senderMatches filter sender then
    if result ≠ PyVal.none then queue ++ [result] else queue
  else queue

/-- The state of one `Client` object together with its footprint in the
process-wide registries: `queue` is `self.queue`, `connected` the flag,
`subscriptions` the dict `self.subscriptions` (topic, filter, recorded
receiver id), `receivers` the receiver closures this client currently has
connected to blinker signals (id, topic, filter) in connection order, and
`inActiveSet` membership of `active_clients`. -/
structure ClientModel : Type where
  queue : List PyVal
  connected : Bool
  nextRid : Nat
  subscriptions : List (String × SenderFilter × Nat)
  receivers : List (Nat × String × SenderFilter)
  inActiveSet : Bool
deriving DecidableEq, Repr

/-- A freshly allocated client before `process_topics` runs. -/
def ClientModel.new : ClientModel :=
  ⟨[], false, 0, [], [], false⟩

/-- `Client.subscribe(topic, senders)` (backend.py 53-71): create a fresh
receiver closure, connect it to the topic's signal with `weak=False`, and
assign the dict entry `self.subscriptions[topic]` — replacing any previous
entry for that topic without disconnecting its receiver. -/
def ClientModel.subscribe (c : ClientModel) (topic : String)
    (senders : SenderFilter) : ClientModel :=
  { c with
    nextRid := c.nextRid + 1
    receivers := c.receivers ++ [(c.nextRid, topic, senders)]
    subscriptions :=
      (c.subscriptions.filter fun s => s.1 ≠ topic) ++ [(topic, senders, c.nextRid)] }

/-- `Client.unsubscribe(topic)` (backend.py 73-78): when the dict has an
entry for the topic, disconnect the receiver recorded there and delete the
entry; otherwise do nothing. -/
def ClientModel.unsubscribe (c : ClientModel) (topic : String) : ClientModel :=
  match c.subscriptions.find? (fun s => s.1 = topic) with
  | some (_, _, rid) =>
      { c with
        receivers := c.receivers.filter fun r => r.1 ≠ rid
        subscriptions := c.subscriptions.filter fun s => s.1 ≠ topic }
  | Option.none => c

/-- `Client.connect()` (backend.py 80-88): when not connected, insert into
`active_clients` and set the flag; otherwise do nothing. -/
def ClientModel.connect (c : ClientModel) : ClientModel :=
  if c.connected then c else { c with connected := true, inActiveSet := true }

/-- `Client.disconnect()` (backend.py 90-98): when connected, pop from
`active_clients` and clear the flag; otherwise do nothing.  Topic
subscriptions and their receivers are not touched. -/
def ClientModel.disconnect (c : ClientModel) : ClientModel :=
  if c.connected then { c with connected := false, inActiveSet := false } else c

/-- `Client.send(item)` (backend.py 116-125): when connected, enqueue and
report `true`; otherwise leave the queue alone and report `false`.
(`put_nowait` on the unbounded `asyncio.Queue` cannot fail, so the
`except` branch is dead.) -/
def ClientModel.send (c : ClientModel) (item : PyVal) : ClientModel × Bool :=
  if c.connected then ({ c with queue := c.queue ++ [item] }, true) else (c, false)

/-- One item routed on a topic reaching this client: blinker calls, in
connection order, every receiver the client has connected to that topic's
signal, and each runs `topicReceiver`. -/
def ClientModel.deliver (c : ClientModel) (topic sender : String)
    (result : PyVal) : ClientModel :=
  { c with
    queue := c.receivers.foldl
      (fun q r => if r.2.1 = topic then topicReceiver r.2.2 q sender result else q)
      c.queue }

/-- `process_topics` on a list of topic names (backend.py 37-39), run by
`Client.__init__` before `connect` is ever called: subscribe to each topic
with the default `ANY` filter. -/
def ClientModel.mkWithTopics (topics : List String) : ClientModel :=
  topics.foldl (fun c t => c.subscribe t SenderFilter.any) ClientModel.new

/-! ## Helper lemmas about worker outputs -/

theorem runOut_none_cons (rest : List PyVal) (err : Option String) :
    runOut ⟨PyVal.none :: rest, err⟩ = runOut ⟨rest, err⟩ := by
  simp [runOut, List.filter_cons]

theorem runOut_cons (v : PyVal) (rest : List PyVal) (err : Option String)
    (hv : v ≠ PyVal.none) :
    runOut ⟨v :: rest, err⟩ = QEntry.val v :: runOut ⟨rest, err⟩ := by
  simp [runOut, List.filter_cons, hv]

theorem runOut_nil_err (e : String) :
    runOut ⟨[], some e⟩ = [QEntry.val (PyVal.exc e)] := rfl

theorem runOut_nil_ok : runOut ⟨[], Option.none⟩ = [] := rfl

theorem val_mem_runOut (r : HandlerRun) (Y : PyVal) (hY : Y ∈ r.items)
    (hYn : Y ≠ PyVal.none) : QEntry.val Y ∈ runOut r := by
  unfold runOut
  refine List.mem_append_left _ ?_
  exact List.mem_map.mpr ⟨Y, List.mem_filter.mpr ⟨hY, by simp [hYn]⟩, rfl⟩

theorem exc_mem_runOut (r : HandlerRun) (e : String) (he : r.error = some e) :
    QEntry.val (PyVal.exc e) ∈ runOut r := by
  unfold runOut
  exact List.mem_append_right _ (by simp [errOut, he])

theorem val_none_not_mem_runOut (r : HandlerRun) :
    QEntry.val PyVal.none ∉ runOut r := by
  unfold runOut
  intro h
  rcases List.mem_append.mp h with h | h
  · rcases List.mem_map.mp h with ⟨a, ha, hav⟩
    have ha2 := (List.mem_filter.mp ha).2
    cases hav
    simp at ha2
  · cases herr : r.error with
    | none => rw [herr] at h; simp [errOut] at h
    | some e => rw [herr] at h; simp [errOut] at h

theorem mem_burstTotal (runs : List HandlerRun) (r : HandlerRun) (hr : r ∈ runs)
    (x : QEntry) (hx : x ∈ runOut r) : x ∈ burstTotal runs := by
  unfold burstTotal
  exact List.mem_flatten.mpr ⟨runOut r, List.mem_map.mpr ⟨r, hr, rfl⟩, hx⟩

theorem val_none_not_mem_burstTotal (runs : List HandlerRun) :
    QEntry.val PyVal.none ∉ burstTotal runs := by
  unfold burstTotal
  intro h
  rcases List.mem_flatten.mp h with ⟨l, hl, hx⟩
  rcases List.mem_map.mp hl with ⟨r, _, rfl⟩
  exact val_none_not_mem_runOut r hx

/-! ## The conservation and ordering invariants of a burst -/

theorem burst_multiset_invariant (runs : List HandlerRun) (s : BurstState)
    (h : Relation.ReflTransGen BurstStep (initBurst runs) s) :
    (s.outQ : Multiset QEntry) + (pendingOut s.pending : Multiset QEntry) =
      (burstTotal runs : Multiset QEntry) + sentPart s.sentinelSent := by
  induction h with
  | refl => simp [initBurst, pendingOut, burstTotal, sentPart]
  | tail hab st ih =>
      cases st with
      | yieldNone l rr rest err q b =>
          rw [← ih]
          simp only [pendingOut, List.map_append, List.map_cons, List.flatten_append,
            List.flatten_cons, runOut_none_cons, ← Multiset.coe_add]
      | yieldItem l rr rest err q b v hv =>
          rw [← ih]
          simp only [pendingOut, List.map_append, List.map_cons, List.flatten_append,
            List.flatten_cons, runOut_cons v rest err hv, ← Multiset.coe_add,
            ← Multiset.cons_coe, ← Multiset.singleton_add]
          abel
      | raiseErr l rr e q b =>
          rw [← ih]
          simp only [pendingOut, List.map_append, List.map_cons, List.flatten_append,
            List.flatten_cons, runOut_nil_err, ← Multiset.coe_add,
            ← Multiset.cons_coe, ← Multiset.singleton_add]
          abel
      | finish l rr q b =>
          rw [← ih]
          simp only [pendingOut, List.map_append, List.map_cons, List.flatten_append,
            List.flatten_cons, runOut_nil_ok, List.nil_append, ← Multiset.coe_add]
      | sentinel q =>
          have ih' : (q : Multiset QEntry) = (burstTotal runs : Multiset QEntry) := by
            simpa [pendingOut, sentPart] using ih
          simp [pendingOut, sentPart, ← Multiset.coe_add, ih']

theorem burst_order_invariant (runs : List HandlerRun) (s : BurstState)
    (h : Relation.ReflTransGen BurstStep (initBurst runs) s) :
    (s.sentinelSent = false → QEntry.snt ∉ s.outQ) ∧
    (s.sentinelSent = true → s.pending = [] ∧
      ∃ pre, s.outQ = pre ++ [QEntry.snt] ∧ QEntry.snt ∉ pre) := by
  induction h with
  | refl =>
      refine ⟨fun _ => by simp [initBurst], fun hf => by simp [initBurst] at hf⟩
  | tail hab st ih =>
      cases st with
      | yieldNone l rr rest err q b =>
          cases b with
          | false => exact ⟨fun _ => ih.1 rfl, fun hf => by simp at hf⟩
          | true => exact absurd (ih.2 rfl).1 (by simp)
      | yieldItem l rr rest err q b v hv =>
          cases b with
          | false =>
              refine ⟨fun _ => ?_, fun hf => by simp at hf⟩
              have h1 := ih.1 rfl
              simp only [List.mem_append, List.mem_singleton]
              rintro (h | h)
              · exact h1 h
              · exact QEntry.noConfusion h
          | true => exact absurd (ih.2 rfl).1 (by simp)
      | raiseErr l rr e q b =>
          cases b with
          | false =>
              refine ⟨fun _ => ?_, fun hf => by simp at hf⟩
              have h1 := ih.1 rfl
              simp only [List.mem_append, List.mem_singleton]
              rintro (h | h)
              · exact h1 h
              · exact QEntry.noConfusion h
          | true => exact absurd (ih.2 rfl).1 (by simp)
      | finish l rr q b =>
          cases b with
          | false => exact ⟨fun _ => ih.1 rfl, fun hf => by simp at hf⟩
          | true => exact absurd (ih.2 rfl).1 (by simp)
      | sentinel q =>
          refine ⟨fun hf => by simp at hf, fun _ => ⟨rfl, q, rfl, ih.1 rfl⟩⟩

/-! ## A canonical complete schedule of a burst -/

theorem drain_worker (items : List PyVal) (err : Option String) :
    ∀ (rest : List HandlerRun) (q : List QEntry) (b : Bool),
      Relation.ReflTransGen BurstStep ⟨⟨items, err⟩ :: rest, q, b⟩
        ⟨rest, q ++ runOut ⟨items, err⟩, b⟩ := by
  induction items with
  | nil =>
      intro rest q b
      cases err with
      | none =>
          have st := BurstStep.finish [] rest q b
          simpa [runOut_nil_ok] using Relation.ReflTransGen.single st
      | some e =>
          have st := BurstStep.raiseErr [] rest e q b
          simpa [runOut_nil_err] using Relation.ReflTransGen.single st
  | cons v vs ih =>
      intro rest q b
      by_cases hv : v = PyVal.none
      · subst hv
        have st := BurstStep.yieldNone [] rest vs err q b
        have tl := ih rest q b
        have hh := Relation.ReflTransGen.head st tl
        simpa [runOut_none_cons] using hh
      · have st := BurstStep.yieldItem [] rest vs err q b v hv
        have tl := ih rest (q ++ [QEntry.val v]) b
        have hh := Relation.ReflTransGen.head st tl
        simpa [runOut_cons v vs err hv, List.append_assoc] using hh

theorem drain_all (runs : List HandlerRun) :
    ∀ q : List QEntry,
      Relation.ReflTransGen BurstStep ⟨runs, q, false⟩
        ⟨[], q ++ burstTotal runs, false⟩ := by
  induction runs with
  | nil =>
      intro q
      simpa [burstTotal] using (Relation.ReflTransGen.refl
        (r := BurstStep) (a := ⟨[], q, false⟩))
  | cons r rs ih =>
      intro q
      have h1 := drain_worker r.items r.error rs q false
      have h2 := ih (q ++ runOut r)
      have hh := Relation.ReflTransGen.trans h1 h2
      simpa [burstTotal, List.append_assoc] using hh

theorem burst_completes (runs : List HandlerRun) :
    Relation.ReflTransGen BurstStep (initBurst runs)
      ⟨[], burstTotal runs ++ [QEntry.snt], true⟩ := by
  have h1 := drain_all runs []
  have h2 := Relation.ReflTransGen.single (BurstStep.sentinel (burstTotal runs))
  exact Relation.ReflTransGen.trans h1 h2

/-! ## Helper lemmas about the receiver closure and delivery fold -/

theorem topicReceiver_none (f : SenderFilter) (q : List PyVal) (s : String) :
    topicReceiver f q s PyVal.none = q := by
  unfold topicReceiver
  split
  · simp
  · rfl

theorem topicReceiver_mem_of_mem (f : SenderFilter) (q : List PyVal) (s : String)
    (r x : PyVal) (hx : x ∈ q) : x ∈ topicReceiver f q s r := by
  unfold topicReceiver
  split
  · split
    · exact List.mem_append_left _ hx
    · exact hx
  · exact hx

theorem topicReceiver_mem_self (f : SenderFilter) (q : List PyVal) (s : String)
    (r : PyVal) (hm : senderMatches f s = true) (hr : r ≠ PyVal.none) :
    r ∈ topicReceiver f q s r := by
  unfold topicReceiver
  rw [if_pos hm, if_pos hr]
  exact List.mem_append_right _ (List.mem_singleton.2 rfl)

theorem foldl_recv_mem (recvs : List (Nat × String × SenderFilter)) (topic sender : String)
    (item : PyVal) (hi : item ≠ PyVal.none) :
    ∀ q : List PyVal,
      ((∃ p ∈ recvs, p.2.1 = topic ∧ senderMatches p.2.2 sender = true) ∨ item ∈ q) →
      item ∈ recvs.foldl
        (fun q r => if r.2.1 = topic then topicReceiver r.2.2 q sender item else q) q := by
  induction recvs with
  | nil =>
      intro q h
      rcases h with ⟨p, hp, _⟩ | h
      · exact absurd hp (List.not_mem_nil p)
      · exact h
  | cons r rs ih =>
      intro q h
      rw [List.foldl_cons]
      rcases h with ⟨p, hp, hpt, hpm⟩ | hq
      · rcases List.mem_cons.mp hp with rfl | hp'
        · apply ih
          right
          rw [if_pos hpt]
          exact topicReceiver_mem_self _ _ _ _ hpm hi
        · exact ih _ (Or.inl ⟨p, hp', hpt, hpm⟩)
      · apply ih
        right
        by_cases ht : r.2.1 = topic
        · rw [if_pos ht]
          exact topicReceiver_mem_of_mem _ _ _ _ _ hq
        · rw [if_neg ht]
          exact hq

theorem foldl_subscribe_connected (topics : List String) (c : ClientModel) :
    (topics.foldl (fun c t => c.subscribe t SenderFilter.any) c).connected = c.connected := by
  induction topics generalizing c with
  | nil => rfl
  | cons t ts ih =>
      rw [List.foldl_cons, ih]
      rfl

theorem foldl_subscribe_receiver_mono (topics : List String) (c : ClientModel)
    (x : Nat × String × SenderFilter) (hx : x ∈ c.receivers) :
    x ∈ (topics.foldl (fun c t => c.subscribe t SenderFilter.any) c).receivers := by
  induction topics generalizing c with
  | nil => exact hx
  | cons t ts ih =>
      rw [List.foldl_cons]
      exact ih _ (List.mem_append_left _ hx)

theorem foldl_subscribe_receiver_mem (topics : List String) (T : String) :
    ∀ c : ClientModel, T ∈ topics →
      ∃ rid, (rid, T, SenderFilter.any) ∈
        (topics.foldl (fun c t => c.subscribe t SenderFilter.any) c).receivers := by
  induction topics with
  | nil =>
      intro c hT
      exact absurd hT (List.not_mem_nil T)
  | cons t ts ih =>
      intro c hT
      rw [List.foldl_cons]
      rcases List.mem_cons.mp hT with rfl | hT'
      · refine ⟨c.nextRid, foldl_subscribe_receiver_mono ts _ _ ?_⟩
        exact List.mem_append_right _ (List.mem_singleton.2 rfl)
      · exact ih _ hT'

/-! ## Claim C4: adapter uniformity -/

/-- C4: for a handler returning the plain value 5, an awaitable resolving
to 5, a sync generator yielding 5 once, or an async generator yielding 5
once, `_aiter_results` produces exactly the single-item sequence `[5]`. -/
theorem adapter_uniformity_five :
    aiterResults (HandlerResult.plain (PyVal.int 5)) = [PyVal.int 5] ∧
    aiterResults (HandlerResult.awaitable (PyVal.int 5)) = [PyVal.int 5] ∧
    aiterResults (HandlerResult.syncGen [PyVal.int 5]) = [PyVal.int 5] ∧
    aiterResults (HandlerResult.asyncGen [PyVal.int 5]) = [PyVal.int 5] := by
  refine ⟨rfl, rfl, rfl, rfl⟩

/-! ## Claim C3: sender filtering -/

/-- C3: a Client subscribed to topic T with sender filter {"alice"} never
has an item enqueued by a dispatch on T with sender "bob"; in general the
subscription receiver enqueues only when its filter is ANY or contains the
dispatching sender. -/
theorem sender_filtering :
    (∀ item : PyVal,
      (((ClientModel.new.subscribe "T" (SenderFilter.only ["alice"])).deliver
          "T" "bob" item)).queue = []) ∧
    (∀ (f : SenderFilter) (q : List PyVal) (s : String) (r : PyVal),
      topicReceiver f q s r ≠ q → senderMatches f s = true) := by
  constructor
  · intro item
    rfl
  · intro f q s r h
    by_cases m : senderMatches f s
    · exact m
    · exact absurd (by simp [topicReceiver, m]) h

theorem sender_filtering_witness :
    ((ClientModel.new.subscribe "T" (SenderFilter.only ["alice"])).deliver
        "T" "bob" (PyVal.int 7)).queue = [] ∧
    senderMatches SenderFilter.any "x" = true :=
  ⟨sender_filtering.1 (PyVal.int 7),
   sender_filtering.2 SenderFilter.any [] "x" (PyVal.int 1) (by decide)⟩

/-! ## Claim C9: the adapter and the value None -/

/-- C9 counterexample: for a handler returning plain `None` (or an awaitable
resolving to `None`) `_aiter_results` produces one item, not zero — the
`None` is yielded once and only suppressed downstream. -/
theorem adapter_none_counterexample :
    (aiterResults (HandlerResult.plain PyVal.none)).length = 1 ∧
    (aiterResults (HandlerResult.awaitable PyVal.none)).length = 1 := by
  exact ⟨rfl, rfl⟩

/-- C9 amended: on plain `None` or an awaitable resolving to `None` the
adapter yields the single-item sequence `[None]`; the downstream filters
(the `send_stream` worker and the subscription receiver) then drop it, so
zero items are enqueued. -/
theorem adapter_none_amended :
    aiterResults (HandlerResult.plain PyVal.none) = [PyVal.none] ∧
    aiterResults (HandlerResult.awaitable PyVal.none) = [PyVal.none] ∧
    runOut ⟨aiterResults (HandlerResult.plain PyVal.none), Option.none⟩ = [] ∧
    runOut ⟨aiterResults (HandlerResult.awaitable PyVal.none), Option.none⟩ = [] ∧
    (∀ (f : SenderFilter) (q : List PyVal) (s : String),
      topicReceiver f q s PyVal.none = q) := by
  refine ⟨rfl, rfl, rfl, rfl, topicReceiver_none⟩

/-! ## Claim C6: writes to a disconnected client -/

/-- C6 counterexample: a disconnected Client still receives queue writes on
the subscription-receiver path — here a client constructed with topic "T",
connected, then disconnected, gets the routed item enqueued. -/
theorem disconnected_write_counterexample :
    ((((ClientModel.mkWithTopics ["T"]).connect).disconnect).connected = false) ∧
    (((((ClientModel.mkWithTopics ["T"]).connect).disconnect).deliver
        "T" "alice" (PyVal.int 1)).queue = [PyVal.int 1]) := by
  exact ⟨rfl, rfl⟩

/-- C6 amended: `Client.send` on a disconnected client is a safe no-op
(returns false, queue unchanged, no exception); the topic-subscription
receivers, however, never consult the `connected` flag — delivery through
them is identical whether the client is connected or not, and continues
until the client unsubscribes. -/
theorem disconnected_send_noop (c : ClientModel) (item : PyVal)
    (h : c.connected = false) :
    c.send item = (c, false) ∧
    (∀ (t s : String) (r : PyVal),
      (({ c with connected := true } : ClientModel).deliver t s r).queue =
        (c.deliver t s r).queue) := by
  constructor
  · simp [ClientModel.send, h]
  · intro t s r
    rfl

theorem disconnected_send_noop_witness :
    ClientModel.new.send (PyVal.int 1) = (ClientModel.new, false) :=
  (disconnected_send_noop ClientModel.new (PyVal.int 1) rfl).1

/-! ## Claim C7: disconnect -/

/-- C7 counterexample: after `connect()` then `disconnect()`, a client
constructed with topic "T" is gone from the active-client set but its
receiver is still connected to topic "T"'s signal and its subscription
entry is intact — disconnect does not remove it from any topic's
subscriber set. -/
theorem disconnect_subscriptions_counterexample :
    ((((ClientModel.mkWithTopics ["T"]).connect).disconnect).inActiveSet = false) ∧
    ((((ClientModel.mkWithTopics ["T"]).connect).disconnect).receivers =
        [(0, "T", SenderFilter.any)]) ∧
    ((((ClientModel.mkWithTopics ["T"]).connect).disconnect).subscriptions =
        [("T", SenderFilter.any, 0)]) := by
  refine ⟨rfl, rfl, rfl⟩

/-- C7 amended: `disconnect()` removes the client from the global
active-client set and marks it disconnected; it leaves the client's topic
subscriptions and their connected receivers untouched; and a second
`disconnect()` is a no-op, so disconnecting twice equals disconnecting
once. -/
theorem disconnect_idempotent (c : ClientModel) (h : c.connected = true) :
    c.disconnect.connected = false ∧
    c.disconnect.inActiveSet = false ∧
    c.disconnect.receivers = c.receivers ∧
    c.disconnect.subscriptions = c.subscriptions ∧
    c.disconnect.disconnect = c.disconnect := by
  simp [ClientModel.disconnect, h]

theorem disconnect_idempotent_witness :
    (ClientModel.new.connect).disconnect.connected = false :=
  (disconnect_idempotent ClientModel.new.connect rfl).1

/-! ## Claim C8: subscribing twice to the same topic -/

/-- C8: subscribing twice to topic "T" with filter ANY leaves two receivers
connected, so one dispatched item is enqueued twice; moreover the first
receiver's handle was overwritten in the subscriptions dict, so even
`unsubscribe` removes only the second one and the duplicate delivery
persists. -/
theorem subscribe_twice_duplicates :
    ((((ClientModel.new.subscribe "T" SenderFilter.any).subscribe
        "T" SenderFilter.any).deliver "T" "s" (PyVal.int 1)).queue =
      [PyVal.int 1, PyVal.int 1]) ∧
    ((((ClientModel.new.subscribe "T" SenderFilter.any).subscribe
        "T" SenderFilter.any).unsubscribe "T").receivers =
      [(0, "T", SenderFilter.any)]) ∧
    (((((ClientModel.new.subscribe "T" SenderFilter.any).subscribe
        "T" SenderFilter.any).unsubscribe "T").deliver "T" "s" (PyVal.int 1)).queue =
      [PyVal.int 1]) := by
  refine ⟨rfl, rfl, rfl⟩

/-! ## Claim C10: subscriptions are installed at construction time -/

/-- C10: a client constructed with a topic list is subscribed before
`connect()` is ever called — it is still in the Created state
(`connected = false`), yet an item dispatched on one of its topics with any
sender is enqueued on its queue. -/
theorem construction_time_subscription (topics : List String) (T sender : String)
    (item : PyVal) (hT : T ∈ topics) (hi : item ≠ PyVal.none) :
    (ClientModel.mkWithTopics topics).connected = false ∧
    item ∈ ((ClientModel.mkWithTopics topics).deliver T sender item).queue := by
  constructor
  · exact foldl_subscribe_connected topics ClientModel.new
  · obtain ⟨rid, hmem⟩ := foldl_subscribe_receiver_mem topics T ClientModel.new hT
    exact foldl_recv_mem _ T sender item hi _
      (Or.inl ⟨(rid, T, SenderFilter.any), hmem, rfl, rfl⟩)

theorem construction_time_subscription_witness :
    (ClientModel.mkWithTopics ["T"]).connected = false ∧
    PyVal.int 1 ∈ ((ClientModel.mkWithTopics ["T"]).deliver "T" "s" (PyVal.int 1)).queue :=
  construction_time_subscription ["T"] "T" "s" (PyVal.int 1) (by decide) (by decide)

/-! ## Claim C1: the sentinel of a burst -/

/-- C1: every burst run by `send_stream` — including a burst with zero
matching handlers — can run to completion with exactly one sentinel in
`out_q`; in every state a burst passes through, no sentinel is in `out_q`
before the `finally` block runs, and afterwards all handler tasks have
settled and the single sentinel sits strictly after all real items of the
burst, which are collectively exactly the workers' outputs. -/
theorem sentinel_exactly_once (runs : List HandlerRun) :
    Reachable runs ⟨[], burstTotal runs ++ [QEntry.snt], true⟩ ∧
    (∀ s, Reachable runs s →
      (s.sentinelSent = false → QEntry.snt ∉ s.outQ) ∧
      (s.sentinelSent = true → s.pending = [] ∧
        ∃ pre, s.outQ = pre ++ [QEntry.snt] ∧ QEntry.snt ∉ pre ∧
          pre.Perm (burstTotal runs))) := by
  constructor
  · exact burst_completes runs
  · intro s hs
    have hord := burst_order_invariant runs s hs
    refine ⟨hord.1, fun ht => ?_⟩
    obtain ⟨hpend, pre, hq, hpre⟩ := hord.2 ht
    refine ⟨hpend, pre, hq, hpre, ?_⟩
    have hmul := burst_multiset_invariant runs s hs
    rw [ht, hpend, hq] at hmul
    simp only [pendingOut, List.map_nil, List.flatten_nil, Multiset.coe_nil, add_zero,
      sentPart, if_true, ← Multiset.coe_add, Multiset.coe_singleton] at hmul
    exact Multiset.coe_eq_coe.mp (add_right_cancel hmul)

theorem sentinel_exactly_once_witness :
    (⟨[], burstTotal [⟨[PyVal.int 5], Option.none⟩] ++ [QEntry.snt], true⟩
        : BurstState).pending = [] ∧
    ∃ pre, (⟨[], burstTotal [⟨[PyVal.int 5], Option.none⟩] ++ [QEntry.snt], true⟩
        : BurstState).outQ = pre ++ [QEntry.snt] ∧ QEntry.snt ∉ pre ∧
      pre.Perm (burstTotal [⟨[PyVal.int 5], Option.none⟩]) :=
  ((sentinel_exactly_once [⟨[PyVal.int 5], Option.none⟩]).2 _
    (sentinel_exactly_once [⟨[PyVal.int 5], Option.none⟩]).1).2 rfl

/-! ## Claim C2: isolation of a failing handler -/

/-- C2: in a burst with handler A raising exception `e` and sibling handler
B yielding `Y`, the burst still completes with its sentinel, and in every
completed state `Y` is in `out_q`, A's exception was pushed into `out_q` as
an item, and the sentinel sits at the end — B was not cancelled and the
exception did not propagate to the caller of `send_stream`. -/
theorem handler_isolation (A B : HandlerRun) (e : String) (Y : PyVal)
    (hA : A.error = some e) (_hB : B.error = Option.none)
    (hY : Y ∈ B.items) (hYn : Y ≠ PyVal.none) :
    (∃ s, Reachable [A, B] s ∧ s.sentinelSent = true) ∧
    (∀ s, Reachable [A, B] s → s.sentinelSent = true →
      QEntry.val Y ∈ s.outQ ∧ QEntry.val (PyVal.exc e) ∈ s.outQ ∧
      ∃ pre, s.outQ = pre ++ [QEntry.snt]) := by
  constructor
  · exact ⟨_, burst_completes [A, B], rfl⟩
  · intro s hs ht
    obtain ⟨hpend, pre, hq, hpre⟩ := (burst_order_invariant [A, B] s hs).2 ht
    have hmul := burst_multiset_invariant [A, B] s hs
    rw [ht, hpend] at hmul
    simp only [pendingOut, List.map_nil, List.flatten_nil, Multiset.coe_nil, add_zero,
      sentPart, if_true] at hmul
    have hmem : ∀ x : QEntry, x ∈ burstTotal [A, B] → x ∈ s.outQ := by
      intro x hx
      rw [← Multiset.mem_coe, hmul]
      exact Multiset.mem_add.mpr (Or.inl (Multiset.mem_coe.mpr hx))
    refine ⟨?_, ?_, pre, hq⟩
    · exact hmem _ (mem_burstTotal [A, B] B (by simp) _ (val_mem_runOut B Y hY hYn))
    · exact hmem _ (mem_burstTotal [A, B] A (by simp) _ (exc_mem_runOut A e hA))

theorem handler_isolation_witness :
    QEntry.val (PyVal.int 7) ∈
      (⟨[], burstTotal [⟨[], some "ValueError"⟩, ⟨[PyVal.int 7], Option.none⟩] ++
        [QEntry.snt], true⟩ : BurstState).outQ ∧
    QEntry.val (PyVal.exc "ValueError") ∈
      (⟨[], burstTotal [⟨[], some "ValueError"⟩, ⟨[PyVal.int 7], Option.none⟩] ++
        [QEntry.snt], true⟩ : BurstState).outQ ∧
    ∃ pre, (⟨[], burstTotal [⟨[], some "ValueError"⟩, ⟨[PyVal.int 7], Option.none⟩] ++
        [QEntry.snt], true⟩ : BurstState).outQ = pre ++ [QEntry.snt] :=
  (handler_isolation ⟨[], some "ValueError"⟩ ⟨[PyVal.int 7], Option.none⟩
      "ValueError" (PyVal.int 7) rfl rfl (by decide) (by decide)).2 _
    (burst_completes [⟨[], some "ValueError"⟩, ⟨[PyVal.int 7], Option.none⟩]) rfl

/-! ## Claim C5: suppression of None items -/

/-- C5: a handler returning `None` or yielding `None` causes zero enqueued
items on account of those `None` values: the adapter's `[None]` for a plain
`None` is filtered to nothing by the `send_stream` worker, no worker ever
contributes a `None` entry to `out_q`, no reachable burst state has a
`None` entry in `out_q`, and the subscription receiver leaves a client's
queue unchanged when the routed result is `None`. -/
theorem none_suppression :
    (runOut ⟨aiterResults (HandlerResult.plain PyVal.none), Option.none⟩ = []) ∧
    (∀ r : HandlerRun, QEntry.val PyVal.none ∉ runOut r) ∧
    (∀ (runs : List HandlerRun) (s : BurstState), Reachable runs s →
      QEntry.val PyVal.none ∉ s.outQ) ∧
    (∀ (f : SenderFilter) (q : List PyVal) (sender : String),
      topicReceiver f q sender PyVal.none = q) ∧
    (∀ (c : ClientModel) (t sender : String),
      (c.deliver t sender PyVal.none).queue = c.queue) := by
  refine ⟨rfl, val_none_not_mem_runOut, ?_, topicReceiver_none, ?_⟩
  · intro runs s hs hmem
    have hmul := burst_multiset_invariant runs s hs
    have hmem2 : QEntry.val PyVal.none ∈
        (burstTotal runs : Multiset QEntry) + sentPart s.sentinelSent := by
      rw [← hmul]
      exact Multiset.mem_add.mpr (Or.inl (Multiset.mem_coe.mpr hmem))
    rcases Multiset.mem_add.mp hmem2 with h | h
    · exact val_none_not_mem_burstTotal runs (Multiset.mem_coe.mp h)
    · unfold sentPart at h
      rcases hb : s.sentinelSent with _ | _ <;> rw [hb] at h
      · simp at h
      · rw [if_pos rfl] at h
        exact QEntry.noConfusion (Multiset.mem_singleton.mp h)
  · intro c t sender
    show c.receivers.foldl
        (fun q r => if r.2.1 = t then topicReceiver r.2.2 q sender PyVal.none else q)
        c.queue = c.queue
    induction c.receivers generalizing c with
    | nil => rfl
    | cons r rs ih =>
        rw [List.foldl_cons]
        by_cases h : r.2.1 = t
        · rw [if_pos h, topicReceiver_none]
          exact ih c
        · rw [if_neg h]
          exact ih c

theorem none_suppression_witness :
    QEntry.val PyVal.none ∉ (initBurst []).outQ :=
  none_suppression.2.2.1 [] (initBurst []) Relation.ReflTransGen.refl
